import Mathlib

/- Shallow embedding of the analytics engine in src/api/sales-report.js
   (first file variant, lines 1-1834): report cache, order pagination,
   aggregation, inventory enrichment, ROP, ABC and dead-stock analytics.
   JavaScript numbers are modelled as exact rationals; NaN and the two
   infinities, which arise from division by zero, are modelled by the
   JNum type.  JavaScript Map and plain-object stores are modelled as
   association lists in insertion order. -/

namespace SalesReport

/-- A JavaScript number as it occurs in this code base: an exact rational,
one of the two infinities, or NaN.  Rounding of IEEE doubles is not
modelled; all arithmetic on finite values is exact. -/
inductive JNum where
  | nan
  | posInf
  | negInf
  | fin (q : ℚ)
deriving DecidableEq

/-- JavaScript comparison on numbers: any comparison with NaN is false;
the infinities compare as expected. -/
def JNum.jle : JNum → JNum → Bool
  | .nan, _ => false
  | _, .nan => false
  | .negInf, _ => true
  | _, .posInf => true
  | .posInf, _ => false
  | .fin _, .negInf => false
  | .fin a, .fin b => decide (a ≤ b)

/-- Lookup in a JavaScript Map or plain object modelled as an association
list in insertion order (first matching key wins; keys are unique in a
Map, so this is the only match). -/
def jsMapGet {κ α : Type} [BEq κ] (k : κ) : List (κ × α) → Option α
  | [] => none
  | e :: rest => if e.1 == k then some e.2 else jsMapGet k rest

/-- JavaScript Map.set: overwrite the entry in place when the key is
present, otherwise append the new entry at the end (insertion order). -/
def jsMapSet {κ α : Type} [BEq κ] (k : κ) (v : α) : List (κ × α) → List (κ × α)
  | [] => [(k, v)]
  | e :: rest => if e.1 == k then (k, v) :: rest else e :: jsMapSet k v rest

/-- JavaScript Map.delete: remove the first (only) entry with the key. -/
def jsMapDelete {κ α : Type} [BEq κ] (k : κ) (m : List (κ × α)) : List (κ × α) :=
  m.eraseP (fun e => e.1 == k)

/-- The deduplication performed by spreading a JavaScript Set built from a
list: keeps the first occurrence of each element, in encounter order. -/
def jsDedup {α : Type} [BEq α] (l : List α) : List α :=
  l.foldl (fun acc x => if acc.contains x then acc else acc ++ [x]) []

-- ========================================
-- Report cache (setCache, sales-report.js lines 32-38)
-- ========================================

/-- setCache from sales-report.js lines 32-38: when the store already holds
15 or more entries, delete the entry under the first key in insertion
order (Map.keys().next().value), then insert the new entry.  The cached
timestamp is part of the opaque payload here. -/
def setCache {α : Type} (k : String) (v : α) (m : List (String × α)) : List (String × α) :=
  let m1 := if 15 ≤ m.length then
    (match m with
     | [] => []
     | e :: _ => jsMapDelete e.1 m)
    else m
  jsMapSet k v m1

-- ========================================
-- ROP calculator (computeROP, sales-report.js lines 662-682)
-- ========================================

inductive Urgency where
  | critical
  | high
  | medium
deriving DecidableEq

structure ROPResult where
  dailyVel : ℚ
  rop : ℤ
  target : ℤ
  qty : ℚ
  /-- none models the Infinity coverage sentinel (rendered as the string
  inf by the source). -/
  coverage : Option ℚ
  urgency : Urgency
deriving DecidableEq

/-- computeROP from sales-report.js lines 662-682.  The source falls back
to environment defaults when leadDays or safetyDays is falsy
(`leadDays || parseInt(env) || 7`); a zero argument is falsy, which the
if models.  The source renders dailyVel and coverage with toFixed for
display; the exact values are kept here. -/
def computeROP (sales30d onHand leadDays safetyDays : ℚ) : ROPResult :=
  let realLeadDays := if leadDays = 0 then 7 else leadDays
  let realSafetyDays := if safetyDays = 0 then 3 else safetyDays
  let dailyVel := max 0 (sales30d / 30)
  let rop := ⌈dailyVel * (realLeadDays + realSafetyDays)⌉
  let target := ⌈dailyVel * (realLeadDays + realSafetyDays + 14)⌉
  let coverage : Option ℚ := if 0 < dailyVel then some (onHand / dailyVel) else none
  let qty := max 0 ((target : ℚ) - onHand)
  let urgency :=
    match coverage with
    | none => Urgency.medium
    | some c =>
      if c ≤ realLeadDays then Urgency.critical
      else if c ≤ realLeadDays + realSafetyDays then Urgency.high
      else Urgency.medium
  ⟨dailyVel, rop, target, qty, coverage, urgency⟩

-- ========================================
-- Line items, orders, validation (sales-report.js lines 240-271)
-- ========================================

/-- An order line item as consumed by processProductsComplete.  String
fields use the empty string for a missing (falsy) value; variant_id and
inventory_item_id use none for null/undefined. -/
structure LineItem where
  variant_id : Option Nat
  sku : String
  title : String
  name : String
  variant_title : String
  price : ℚ
  quantity : Nat
  inventory_item_id : Option Nat
deriving DecidableEq

/-- An order as consumed by the engine.  line_items is none when the field
is missing or not an array; created_at is none when missing. -/
structure Order where
  id : Nat
  line_items : Option (List LineItem)
  created_at : Option String
  subtotal_price : ℚ
  total_price : ℚ
deriving DecidableEq

/-- validateOrder from sales-report.js lines 240-257: the order must have a
line_items array and a created_at timestamp. -/
def validateOrder (o : Order) : Bool :=
  o.line_items.isSome && o.created_at.isSome

/-- validateLineItem from sales-report.js lines 259-271: a line item with
neither a title nor a name is rejected. -/
def validateLineItem (li : LineItem) : Bool :=
  !(li.title == "" && li.name == "")

-- ========================================
-- Aggregation key (processProductsComplete, sales-report.js line 464)
-- ========================================

/-- A JavaScript Map key as used for aggregation: the numeric variant id,
or a fallback string. -/
inductive JsKey where
  | num (n : Nat)
  | str (s : String)
deriving DecidableEq

/-- The aggregation key of sales-report.js line 464: the nullish
coalescing `li.variant_id ?? ...` keeps any non-null variant id;
otherwise the key is the SKU: prefix applied to `li.sku || li.title`,
falling back from the sku to the title when the sku is falsy. -/
def aggKey (li : LineItem) : JsKey :=
  match li.variant_id with
  | some v => .num v
  | none => .str ("SKU:" ++ (if li.sku = "" then li.title else li.sku))

/-- Modelled from the spec: the aggregation key as the specification
describes it (variant identifier if present, else SKU:<sku> if present,
else NAME:<productTitle>__<variantTitle>).  Stated only to be compared
with aggKey, the key the source actually computes. -/
def specAggKey (li : LineItem) : JsKey :=
  match li.variant_id with
  | some v => .num v
  | none =>
    if li.sku = "" then .str ("NAME:" ++ li.title ++ "__" ++ li.variant_title)
    else .str ("SKU:" ++ li.sku)

-- ========================================
-- Order pagination (fetchOrdersPaidInRange, sales-report.js lines 305-351)
-- ========================================

/-- The outcome of one page fetch through safeShopifyCall: fail models a
null result after the bounded retries are exhausted; page carries the
orders of the page and the parsed rel=next token (none when absent). -/
inductive PageResult where
  | fail
  | page (orders : List Order) (next : Option String)

/-- The pagination loop of fetchOrdersPaidInRange (sales-report.js lines
314-339).  pc is the JavaScript pageCount value BEFORE the
`pageCount++ > 100` test, so the loop body runs for pc = 0..100 and the
guard stops it at pc = 101.  The page oracle is indexed by pc; the next
URL influences only which page the oracle returns, which the index
abstracts.  The second component counts the pages actually fetched.
The structural fuel argument starts at 102, strictly more than the
iterations the guard permits from pc = 0, so the fuel-exhaustion branch
is unreachable and the guard alone decides termination. -/
def fetchLoopAux (oracle : Nat → PageResult) : Nat → Nat → List Order × Nat
  | 0, _ => ([], 0)
  | fuel + 1, pc =>
    if 100 < pc then ([], 0)
    else
      match oracle pc with
      | .fail => ([], 1)
      | .page orders none => (orders.filter validateOrder, 1)
      | .page orders (some _) =>
        match fetchLoopAux oracle fuel (pc + 1) with
        | (rest, n) => (orders.filter validateOrder ++ rest, n + 1)

/-- fetchOrdersPaidInRange from sales-report.js lines 305-351, over a page
oracle: accumulates the validated orders of each page, stops on a failed
page, a missing next link, or the page-count guard. -/
def fetchOrdersPaidInRange (oracle : Nat → PageResult) : List Order × Nat :=
  fetchLoopAux oracle 102 0

-- ========================================
-- Aggregation (processProductsComplete, sales-report.js lines 449-494)
-- ========================================

/-- A VariantRow as seeded by the aggregation loop.  Only the fields the
aggregation itself writes are modelled; the enrichment fields added
later (inventoryAvailable and friends) do not affect the aggregate. -/
structure Row where
  productTitle : String
  variantTitle : String
  sku : String
  unitPrice : ℚ
  soldQty : Nat
  revenue : ℚ
  variantId : Option Nat
  inventory_item_id : Option Nat
deriving DecidableEq

/-- The fresh row seeded at the first occurrence of a key
(sales-report.js lines 465-475): JavaScript truthiness falls back from
title to name to the literal Producto, and from variant_title to the
literal Default Title. -/
def newRow (li : LineItem) : Row :=
  { productTitle := if li.title ≠ "" then li.title
      else if li.name ≠ "" then li.name else ("Producto")
    variantTitle := if li.variant_title = "" then ("Default Title") else li.variant_title
    sku := li.sku
    unitPrice := li.price
    soldQty := 0
    revenue := 0
    variantId := li.variant_id
    inventory_item_id := li.inventory_item_id }

/-- The attributed revenue of one line item (sales-report.js lines
479-482): the line subtotal scaled by the ratio of the order total to
the order subtotal, or 0 when the subtotal is not positive. -/
def lineRevenue (o : Order) (li : LineItem) : ℚ :=
  let orderSubtotal := o.subtotal_price
  let lineItemSubtotal := li.price * (li.quantity : ℚ)
  if 0 < orderSubtotal then (lineItemSubtotal / orderSubtotal) * o.total_price else 0

/-- Processing of one line item of order o (sales-report.js lines
458-489): skip invalid items, otherwise accumulate quantity and
attributed revenue under the aggregation key. -/
def addLine (o : Order) (m : List (JsKey × Row)) (li : LineItem) : List (JsKey × Row) :=
  if validateLineItem li then
    let k := aggKey li
    let prev := (jsMapGet k m).getD (newRow li)
    jsMapSet k
      { prev with
        soldQty := prev.soldQty + li.quantity
        revenue := prev.revenue + lineRevenue o li } m
  else m

/-- Processing of one order (sales-report.js lines 455-490): orders that
fail validateOrder are skipped entirely. -/
def addOrder (m : List (JsKey × Row)) (o : Order) : List (JsKey × Row) :=
  if validateOrder o then (o.line_items.getD []).foldl (addLine o) m else m

/-- The byVariant map after the aggregation loop of
processProductsComplete. -/
def aggregateOrders (orders : List Order) : List (JsKey × Row) :=
  orders.foldl addOrder []

/-- The sort comparator of sales-report.js line 494:
`(a,b) => b.soldQty - a.soldQty || b.revenue - a.revenue`, i.e. soldQty
descending with ties broken by revenue descending.  Expressed as the
may-precede relation handed to mergeSort. -/
def rowLE (a b : Row) : Bool :=
  decide (b.soldQty < a.soldQty) || (a.soldQty == b.soldQty && decide (b.revenue ≤ a.revenue))

/-- The rows list produced by the aggregation step of
processProductsComplete (sales-report.js line 494): the map values in
insertion order, sorted by the comparator. -/
def processRows (orders : List Order) : List Row :=
  ((aggregateOrders orders).map (·.2)).mergeSort rowLE

/-- The sum of soldQty over aggregated rows. -/
def totalSoldQty (rows : List Row) : Nat :=
  (rows.map (·.soldQty)).sum

/-- The sum of quantity over the line items the aggregation actually
processes: valid line items of valid orders. -/
def totalLineQty (orders : List Order) : Nat :=
  ((orders.filter validateOrder).map
    (fun o => (((o.line_items.getD []).filter validateLineItem).map (·.quantity)).sum)).sum

-- ========================================
-- ABC classifier (computeABCAnalysis, sales-report.js lines 684-704)
-- ========================================

inductive ABCCat where
  | A
  | B
  | C
deriving DecidableEq

/-- The input of the classifier; only the revenue field is read (the
object spread copies the remaining fields through unchanged, so they are
not modelled). -/
structure RevRow where
  revenue : ℚ
deriving DecidableEq

/-- The JavaScript value of (c / t) * 100: NaN when 0/0, a signed
infinity when c is nonzero and t is zero, exact otherwise. -/
def jsPercent (c t : ℚ) : JNum :=
  if t = 0 then (if c = 0 then .nan else if 0 < c then .posInf else .negInf)
  else .fin (c / t * 100)

/-- One classified output row of computeABCAnalysis.  revenuePercent and
cumulativePercent are rendered with toFixed by the source; the exact
values are kept here. -/
structure ABCRow where
  revenue : ℚ
  rank : Nat
  revenuePercent : JNum
  cumulativePercent : JNum
  category : ABCCat
deriving DecidableEq

/-- The running map body of computeABCAnalysis: cum is the cumulative
revenue before this row, idx the 0-based index. -/
def abcGo (totalRevenue : ℚ) : ℚ → Nat → List RevRow → List ABCRow
  | _, _, [] => []
  | cum, idx, r :: rest =>
    let cum2 := cum + r.revenue
    let p := jsPercent cum2 totalRevenue
    let category :=
      if p.jle (.fin 80) then ABCCat.A
      else if p.jle (.fin 95) then ABCCat.B
      else ABCCat.C
    { revenue := r.revenue
      rank := idx + 1
      revenuePercent := jsPercent r.revenue totalRevenue
      cumulativePercent := p
      category := category } :: abcGo totalRevenue cum2 (idx + 1) rest

/-- computeABCAnalysis from sales-report.js lines 684-704. -/
def computeABCAnalysis (rows : List RevRow) : List ABCRow :=
  abcGo ((rows.map (·.revenue)).sum) 0 0 rows

-- ========================================
-- Inventory enrichment (fetchInventoryLevelsForItems,
-- sales-report.js lines 392-442)
-- ========================================

structure Location where
  id : Nat
  active : Bool
deriving DecidableEq

/-- One InventoryLevel record returned by the inventory_levels endpoint.
available uses 0 for a falsy value (Number(lvl.available || 0)). -/
structure InvLevel where
  inventory_item_id : Nat
  location_id : Nat
  available : ℚ
deriving DecidableEq

/-- The chunking helper of sales-report.js line 356 instantiated at the
chunk size 50 used by fetchInventoryLevelsForItems. -/
def chunk50 {α : Type} (l : List α) : List (List α) :=
  match l with
  | [] => []
  | x :: xs => ((x :: xs).take 50) :: chunk50 ((x :: xs).drop 50)
termination_by l.length
decreasing_by simp [List.length_drop]; omega

/-- res[key] = (res[key] || 0) + available on a plain object modelled as
an association list in insertion order. -/
def bumpVal (k : Nat) (v : ℚ) : List (Nat × ℚ) → List (Nat × ℚ)
  | [] => [(k, v)]
  | e :: rest => if e.1 == k then (k, e.2 + v) :: rest else e :: bumpVal k v rest

/-- The find-or-fetch-and-memoize location resolution of sales-report.js
lines 415-430: look in the run cache of locations, otherwise call the
location endpoint and push the result into the cache; a failed fetch
resolves to none (the level is then skipped). -/
def resolveLoc (fetchLoc : Nat → Option Location) (cache : List Location) (lid : Nat) :
    Option Location × List Location :=
  match cache.find? (fun l => l.id == lid) with
  | some l => (some l, cache)
  | none =>
    match fetchLoc lid with
    | some l => (some l, cache ++ [l])
    | none => (none, cache)

/-- Processing of one inventory level (sales-report.js lines 411-437):
when includeInactive is not set, resolve the location and skip the level
if the resolution fails or the location is inactive; otherwise add the
available quantity under the item key. -/
def addLevel (includeInactive : Bool) (fetchLoc : Nat → Option Location)
    (st : List (Nat × ℚ) × List Location) (lvl : InvLevel) :
    List (Nat × ℚ) × List Location :=
  if includeInactive then (bumpVal lvl.inventory_item_id lvl.available st.1, st.2)
  else
    match resolveLoc fetchLoc st.2 lvl.location_id with
    | (none, c2) => (st.1, c2)
    | (some loc, c2) =>
      if loc.active then (bumpVal lvl.inventory_item_id lvl.available st.1, c2)
      else (st.1, c2)

/-- Processing of one chunk of item ids (sales-report.js lines 400-438):
a failed chunk fetch is counted and skipped; a successful one folds its
levels through addLevel. -/
def processChunk (fetchLevels : List Nat → Option (List InvLevel)) (includeInactive : Bool)
    (fetchLoc : Nat → Option Location)
    (st : List (Nat × ℚ) × List Location) (c : List Nat) :
    List (Nat × ℚ) × List Location :=
  match fetchLevels c with
  | none => st
  | some lvls => lvls.foldl (addLevel includeInactive fetchLoc) st

/-- fetchInventoryLevelsForItems from sales-report.js lines 392-442, over
a chunk-fetch oracle and a location-fetch oracle, threading the run
location cache.  The ids are filtered for truthiness, deduplicated via a
Set, and chunked by 50; the String conversions of the source are
identity on the numeric ids modelled here. -/
def fetchInventoryLevelsForItems (fetchLevels : List Nat → Option (List InvLevel))
    (fetchLoc : Nat → Option Location) (cache0 : List Location)
    (itemIds : List Nat) (includeInactive : Bool) :
    List (Nat × ℚ) × List Location :=
  let ids := jsDedup (itemIds.filter (fun i => i != 0))
  (chunk50 ids).foldl (processChunk fetchLevels includeInactive fetchLoc) ([], cache0)

/-- Whether one level survives the active-location filter: always when
includeInactive is set, otherwise only when its location resolves and is
active. -/
def lvlOk (includeInactive : Bool) (fetchLoc : Nat → Option Location) (lvl : InvLevel) : Bool :=
  includeInactive ||
    (match fetchLoc lvl.location_id with
     | some loc => loc.active
     | none => false)

-- ========================================
-- Dead stock (detectDeadStock, sales-report.js lines 607-657)
-- ========================================

/-- The variant details kept by fetchVariantsByIds (sales-report.js lines
372-381). -/
structure VariantInfo where
  inventory_item_id : Nat
  inventory_quantity : ℚ
  inventory_management : String
  sku : String
  price : ℚ
deriving DecidableEq

structure DeadItem where
  variantId : Nat
  sku : String
  quantity : ℚ
  unitPrice : ℚ
  totalValue : ℚ
  daysStagnant : Nat
deriving DecidableEq

/-- The soldVariants set of sales-report.js lines 621-626: every truthy
variant_id occurring in a line item of the lookback orders. -/
def soldVariantIds (orders : List Order) : List Nat :=
  orders.flatMap (fun o => ((o.line_items.getD []).filterMap (·.variant_id)).filter (fun v => v != 0))

/-- JavaScript `a || b || 0` on numbers (no NaN arises here): the first
nonzero value, else 0. -/
def jsOrZero (a b : ℚ) : ℚ :=
  if a = 0 then (if b = 0 then 0 else b) else a

/-- The dead-stock pipeline after all data is in hand (sales-report.js
lines 628-651): keep the variants unseen in the lookback window, build
an item per variant whose details resolved, keep quantity > 0, sort by
total value descending. -/
def deadStockRows (variantIds : List Nat) (orders : List Order)
    (info : Nat → Option VariantInfo) (inv : Nat → Option ℚ) (deadStockDays : Nat) :
    List DeadItem :=
  let sold := soldVariantIds orders
  let deadVariantIds := variantIds.filter (fun id => !(sold.contains id))
  if deadVariantIds.isEmpty then []
  else
    ((deadVariantIds.filterMap (fun vid =>
      match info vid with
      | none => none
      | some i =>
        let quantity := jsOrZero ((inv i.inventory_item_id).getD 0) i.inventory_quantity
        some { variantId := vid
               sku := i.sku
               quantity := quantity
               unitPrice := i.price
               totalValue := quantity * i.price
               daysStagnant := deadStockDays })).filter
        (fun item => decide (0 < item.quantity))).mergeSort
      (fun a b => decide (b.totalValue ≤ a.totalValue))

/-- The try block of detectDeadStock: each awaited fetch either yields
its value or propagates its rejection outward (modelled by the error
constructor), exactly as an await on a rejected promise would throw. -/
def detectDeadStockBody (period : String) (variantIds : List Nat)
    (fetchOrders : Except String (List Order))
    (fetchVariants : Except String (Nat → Option VariantInfo))
    (fetchInv : Except String (Nat → Option ℚ)) (deadStockDays : Nat) :
    Except String (List DeadItem) :=
  if period == "weekly" || period == "monthly" then .ok []
  else
    match fetchOrders with
    | .error e => .error e
    | .ok orders =>
      let sold := soldVariantIds orders
      let deadVariantIds := variantIds.filter (fun id => !(sold.contains id))
      if deadVariantIds.isEmpty then .ok []
      else
        match fetchVariants with
        | .error e => .error e
        | .ok info =>
          match fetchInv with
          | .error e => .error e
          | .ok inv => .ok (deadStockRows variantIds orders info inv deadStockDays)

/-- detectDeadStock from sales-report.js lines 607-657: the whole body
sits in a try/catch whose catch clause returns the empty list; the
coarse-period early return sits inside the try. -/
def detectDeadStock (period : String) (variantIds : List Nat)
    (fetchOrders : Except String (List Order))
    (fetchVariants : Except String (Nat → Option VariantInfo))
    (fetchInv : Except String (Nat → Option ℚ)) (deadStockDays : Nat) : List DeadItem :=
  match detectDeadStockBody period variantIds fetchOrders fetchVariants fetchInv deadStockDays with
  | .ok l => l
  | .error _ => []

-- ========================================
-- Auxiliary predicates and concrete inputs used by the theorems
-- ========================================

/-- The run location cache is consistent with the location endpoint:
every cached location is what the endpoint returns for its id. -/
def cacheConsistent (fetchLoc : Nat → Option Location) (cache : List Location) : Prop :=
  ∀ l ∈ cache, fetchLoc l.id = some l

/-- The location endpoint returns a location carrying the requested id. -/
def locSelfId (fetchLoc : Nat → Option Location) : Prop :=
  ∀ lid l, fetchLoc lid = some l → l.id = lid

/-- A line item with neither a variant id nor a SKU, used to exercise the
aggregation-key fallback. -/
def liNoKeys : LineItem :=
  { variant_id := none, sku := "", title := "Producto X", name := ""
    variant_title := "V", price := 10, quantity := 1, inventory_item_id := none }

/-- A line item with a SKU but no variant id. -/
def liSkuOnly : LineItem :=
  { variant_id := none, sku := "ABC-1", title := "Producto X", name := ""
    variant_title := "V", price := 10, quantity := 1, inventory_item_id := none }

/-- A line item with a variant id. -/
def liWithVid : LineItem :=
  { variant_id := some 77, sku := "ABC-1", title := "Producto X", name := ""
    variant_title := "V", price := 10, quantity := 1, inventory_item_id := none }

/-- A 15-entry report cache at capacity. -/
def cacheEx : List (String × Nat) :=
  [("k01", 1), ("k02", 2), ("k03", 3), ("k04", 4), ("k05", 5),
   ("k06", 6), ("k07", 7), ("k08", 8), ("k09", 9), ("k10", 10),
   ("k11", 11), ("k12", 12), ("k13", 13), ("k14", 14), ("k15", 15)]

/-- A fresh key not present in cacheEx. -/
def newKeyEx : String := "z"

/-- A page oracle on which every response carries a next link. -/
def allNextOracle : Nat → PageResult :=
  fun _ => .page [] (some ("page_info"))

/-- A page oracle whose first page fails outright. -/
def failOracle : Nat → PageResult :=
  fun _ => .fail

/-- A page oracle that succeeds with zero orders and no next link. -/
def emptyPageOracle : Nat → PageResult :=
  fun _ => .page [] none

/-- Two all-zero-revenue rows: non-empty, non-negative, sorted by revenue
descending, with total revenue zero. -/
def rowsZero : List RevRow := [⟨0⟩, ⟨0⟩]

/-- A concrete classifier input with positive total revenue. -/
def rowsEx : List RevRow := [⟨30⟩, ⟨10⟩]

/-- A lookback order in which variant 1 was sold. -/
def orders90Ex : List Order :=
  [{ id := 5
     line_items := some [{ variant_id := some 1, sku := "S1", title := "P1", name := ""
                           variant_title := "", price := 4, quantity := 2
                           inventory_item_id := none }]
     created_at := some ("2026-01-01")
     subtotal_price := 8
     total_price := 8 }]

/-- Variant details for variant 2 (the dead one). -/
def infoEx : Nat → Option VariantInfo :=
  fun v => if v = 2 then
    some { inventory_item_id := 20, inventory_quantity := 5
           inventory_management := "", sku := "S2", price := 10 }
  else none

/-- Inventory for item 20. -/
def invEx : Nat → Option ℚ :=
  fun i => if i = 20 then some 5 else none

/-- The report variants for the dead-stock scenario. -/
def variantIdsEx : List Nat := [1, 2]

/-- The daily period name. -/
def periodDailyEx : String := "daily"

/-- An error message for a failed fetch. -/
def errMsgEx : String := "network"

/-- A lookback-order fetch that rejects. -/
def fetchOrdersFailEx : Except String (List Order) := .error errMsgEx

/-- The inventory environment of the end-to-end scenario: item 7 has 5
and 3 units at the active locations 100 and 200 and 100 units at the
inactive location 300. -/
def envLevelsEx : List InvLevel :=
  [{ inventory_item_id := 7, location_id := 100, available := 5 },
   { inventory_item_id := 7, location_id := 200, available := 3 },
   { inventory_item_id := 7, location_id := 300, available := 100 }]

/-- The location endpoint of the scenario. -/
def fetchLocEx : Nat → Option Location :=
  fun lid =>
    if lid = 100 then some { id := 100, active := true }
    else if lid = 200 then some { id := 200, active := true }
    else if lid = 300 then some { id := 300, active := false }
    else none

/-- The inventory-levels endpoint of the scenario: returns exactly the
environment levels of the queried items. -/
def fetchLevelsEx : List Nat → Option (List InvLevel) :=
  fun c => some (envLevelsEx.filter (fun lvl => c.contains lvl.inventory_item_id))

-- ========================================
-- Theorems
-- ========================================

/-- C2: for non-negative sales30d and onHand with leadDays = 7 and
safetyDays = 3, computeROP returns dailyVelocity = max 0 (sales30d/30),
rop = ceil of dailyVelocity * 10, target = ceil of dailyVelocity * 24,
suggestedQty = max 0 (target - onHand), coverage = onHand/dailyVelocity
when the velocity is positive and the infinite sentinel otherwise, and
urgency critical when coverage is at most 7, high when at most 10, else
medium; in particular sales30d = 0 gives velocity 0, rop 0, infinite
coverage and medium urgency, and onHand = 0 with positive velocity gives
critical urgency. -/
theorem computeROP_spec (sales30d onHand : ℚ) (hs : 0 ≤ sales30d) (ho : 0 ≤ onHand) :
    (computeROP sales30d onHand 7 3).dailyVel = max 0 (sales30d / 30) ∧
    (computeROP sales30d onHand 7 3).rop =
      ⌈(computeROP sales30d onHand 7 3).dailyVel * (7 + 3)⌉ ∧
    (computeROP sales30d onHand 7 3).target =
      ⌈(computeROP sales30d onHand 7 3).dailyVel * (7 + 3 + 14)⌉ ∧
    (computeROP sales30d onHand 7 3).qty =
      max 0 (((computeROP sales30d onHand 7 3).target : ℚ) - onHand) ∧
    (0 < (computeROP sales30d onHand 7 3).dailyVel →
      (computeROP sales30d onHand 7 3).coverage =
        some (onHand / (computeROP sales30d onHand 7 3).dailyVel)) ∧
    ((computeROP sales30d onHand 7 3).dailyVel = 0 →
      (computeROP sales30d onHand 7 3).coverage = none) ∧
    (∀ c, (computeROP sales30d onHand 7 3).coverage = some c →
      (c ≤ 7 → (computeROP sales30d onHand 7 3).urgency = .critical) ∧
      (¬ c ≤ 7 → c ≤ 10 → (computeROP sales30d onHand 7 3).urgency = .high) ∧
      (¬ c ≤ 7 → ¬ c ≤ 10 → (computeROP sales30d onHand 7 3).urgency = .medium)) ∧
    ((computeROP sales30d onHand 7 3).coverage = none →
      (computeROP sales30d onHand 7 3).urgency = .medium) ∧
    (sales30d = 0 →
      (computeROP sales30d onHand 7 3).dailyVel = 0 ∧
      (computeROP sales30d onHand 7 3).rop = 0 ∧
      (computeROP sales30d onHand 7 3).coverage = none ∧
      (computeROP sales30d onHand 7 3).urgency = .medium) ∧
    (onHand = 0 → 0 < (computeROP sales30d onHand 7 3).dailyVel →
      (computeROP sales30d onHand 7 3).urgency = .critical) := by
  have h7 : ((7 : ℚ) = 0) = False := by norm_num
  have h3 : ((3 : ℚ) = 0) = False := by norm_num
  simp only [computeROP, h7, h3, if_false]
  set dv := max 0 (sales30d / 30) with hdv
  refine ⟨trivial, trivial, trivial, trivial, ?_, ?_, ?_, ?_, ?_, ?_⟩
  · intro hpos
    simp [hpos]
  · intro hz
    simp [hz]
  · intro c hc
    by_cases hpos : 0 < dv
    · simp only [hpos, if_true] at hc ⊢
      obtain rfl : onHand / dv = c := by injection hc
      refine ⟨fun h1 => by simp [h1], fun h1 h2 => ?_, fun h1 h2 => ?_⟩
      · simp only [if_neg h1]
        norm_num at h2 ⊢
        simp [h2]
      · norm_num at h1 h2 ⊢
        rw [if_neg, if_neg] <;> norm_num <;> linarith
    · simp [hpos] at hc
  · intro hc
    by_cases hpos : 0 < dv
    · simp [hpos] at hc
    · simp [hpos]
  · intro hz
    subst hz
    have : dv = 0 := by simp [hdv]
    simp [this]
  · intro hz hpos
    subst hz
    simp only [hpos, if_true]
    have : (0 : ℚ) / dv ≤ 7 := by
      rw [zero_div]; norm_num
    simp [this]

/-- C2 witness: the end-to-end scenario sales30d = 60, onHand = 2 with
leadDays 7 and safetyDays 3 satisfies the hypotheses and hence the
conclusion of computeROP_spec. -/
theorem computeROP_spec_witness :
    ((0 : ℚ) ≤ 60 ∧ (0 : ℚ) ≤ 2) ∧
    ((computeROP 60 2 7 3).dailyVel = max 0 (60 / 30) ∧
     (computeROP 60 2 7 3).rop = ⌈(computeROP 60 2 7 3).dailyVel * (7 + 3)⌉ ∧
     (computeROP 60 2 7 3).target = ⌈(computeROP 60 2 7 3).dailyVel * (7 + 3 + 14)⌉ ∧
     (computeROP 60 2 7 3).qty = max 0 (((computeROP 60 2 7 3).target : ℚ) - 2) ∧
     (0 < (computeROP 60 2 7 3).dailyVel →
       (computeROP 60 2 7 3).coverage = some (2 / (computeROP 60 2 7 3).dailyVel)) ∧
     ((computeROP 60 2 7 3).dailyVel = 0 → (computeROP 60 2 7 3).coverage = none) ∧
     (∀ c, (computeROP 60 2 7 3).coverage = some c →
       (c ≤ 7 → (computeROP 60 2 7 3).urgency = .critical) ∧
       (¬ c ≤ 7 → c ≤ 10 → (computeROP 60 2 7 3).urgency = .high) ∧
       (¬ c ≤ 7 → ¬ c ≤ 10 → (computeROP 60 2 7 3).urgency = .medium)) ∧
     ((computeROP 60 2 7 3).coverage = none → (computeROP 60 2 7 3).urgency = .medium) ∧
     ((60 : ℚ) = 0 →
       (computeROP 60 2 7 3).dailyVel = 0 ∧
       (computeROP 60 2 7 3).rop = 0 ∧
       (computeROP 60 2 7 3).coverage = none ∧
       (computeROP 60 2 7 3).urgency = .medium) ∧
     ((2 : ℚ) = 0 → 0 < (computeROP 60 2 7 3).dailyVel →
       (computeROP 60 2 7 3).urgency = .critical)) :=
  ⟨⟨by norm_num, by norm_num⟩, computeROP_spec 60 2 (by norm_num) (by norm_num)⟩

theorem jsMapSet_length_le {κ α : Type} [BEq κ] (k : κ) (v : α) (m : List (κ × α)) :
    (jsMapSet k v m).length ≤ m.length + 1 := by
  induction m with
  | nil => simp [jsMapSet]
  | cons e rest ih =>
    simp only [jsMapSet]
    split
    · simp
    · simpa using Nat.succ_le_succ ih

theorem jsMapSet_of_not_mem {κ α : Type} [BEq κ] [LawfulBEq κ] (k : κ) (v : α)
    (m : List (κ × α)) (h : ∀ e ∈ m, e.1 ≠ k) :
    jsMapSet k v m = m ++ [(k, v)] := by
  induction m with
  | nil => rfl
  | cons e rest ih =>
    have he : (e.1 == k) = false := by
      have := h e (by simp)
      simpa using this
    simp only [jsMapSet, he, cond_false, List.cons_append]
    rw [if_neg (by simp [he]), ih (fun x hx => h x (by simp [hx]))]

/-- C6: setCache keeps the report cache at no more than 15 entries, and
inserting under a fresh key when exactly 15 entries are present evicts
exactly the first entry in insertion order, appending the new entry and
leaving every other entry in place. -/
theorem setCache_spec {α : Type} (k : String) (v : α) (m : List (String × α)) :
    (m.length ≤ 15 → (setCache k v m).length ≤ 15) ∧
    (m.length = 15 → k ∉ m.map Prod.fst → setCache k v m = m.tail ++ [(k, v)]) := by
  constructor
  · intro hle
    unfold setCache
    by_cases h15 : 15 ≤ m.length
    · cases m with
      | nil => simp at h15
      | cons e rest =>
        simp only [if_pos h15, jsMapDelete, List.eraseP_cons, beq_self_eq_true, cond_true]
        have := jsMapSet_length_le k v rest
        have hlen : rest.length + 1 ≤ 15 := by simpa using hle
        omega
    · simp only [if_neg h15]
      have := jsMapSet_length_le k v m
      omega
  · intro hlen hnot
    unfold setCache
    have h15 : 15 ≤ m.length := by omega
    cases m with
    | nil => simp at hlen
    | cons e rest =>
      simp only [if_pos h15, jsMapDelete, List.eraseP_cons, beq_self_eq_true, cond_true,
        List.tail_cons]
      refine jsMapSet_of_not_mem k v rest (fun x hx hxk => hnot ?_)
      simp only [List.map_cons, List.mem_cons]
      exact Or.inr (List.mem_map.mpr ⟨x, hx, hxk⟩)

/-- C6 witness: inserting a fresh key into the concrete 15-entry cache
evicts exactly the first entry and appends the new one. -/
theorem setCache_spec_witness :
    (cacheEx.length = 15 ∧ newKeyEx ∉ cacheEx.map Prod.fst) ∧
    setCache newKeyEx 99 cacheEx = cacheEx.tail ++ [(newKeyEx, 99)] :=
  ⟨⟨by decide, by decide⟩,
    (setCache_spec newKeyEx 99 cacheEx).2 (by decide) (by decide)⟩

/-- C4 counterexample: for a line item with neither variant id nor SKU
the source key is SKU: followed by the product title, not the
NAME:<productTitle>__<variantTitle> key the claim describes. -/
theorem aggKey_counterexample :
    aggKey liNoKeys = .str ("SKU:" ++ liNoKeys.title) ∧
    aggKey liNoKeys ≠ specAggKey liNoKeys := by
  constructor
  · rfl
  · decide

/-- C4 amended: the aggregation key is the variant id when present, else
SKU:<sku> when the SKU is present, and SKU:<productTitle> when both are
absent. -/
theorem aggKey_spec (li : LineItem) :
    (∀ v, li.variant_id = some v → aggKey li = .num v) ∧
    (li.variant_id = none → li.sku ≠ "" → aggKey li = .str ("SKU:" ++ li.sku)) ∧
    (li.variant_id = none → li.sku = "" → aggKey li = .str ("SKU:" ++ li.title)) := by
  refine ⟨fun v hv => ?_, fun hn hs => ?_, fun hn hs => ?_⟩
  · simp [aggKey, hv]
  · simp [aggKey, hn, hs]
  · simp [aggKey, hn, hs]

/-- C4 witness: the amended key rule applied to the three concrete line
items, one per branch. -/
theorem aggKey_spec_witness :
    (liWithVid.variant_id = some 77 ∧ aggKey liWithVid = .num 77) ∧
    (liSkuOnly.variant_id = none ∧ liSkuOnly.sku ≠ "" ∧
      aggKey liSkuOnly = .str ("SKU:" ++ liSkuOnly.sku)) ∧
    (liNoKeys.variant_id = none ∧ liNoKeys.sku = "" ∧
      aggKey liNoKeys = .str ("SKU:" ++ liNoKeys.title)) :=
  ⟨⟨rfl, (aggKey_spec liWithVid).1 77 rfl⟩,
   ⟨rfl, by decide, (aggKey_spec liSkuOnly).2.1 rfl (by decide)⟩,
   ⟨rfl, rfl, (aggKey_spec liNoKeys).2.2 rfl rfl⟩⟩

theorem fetchLoopAux_count_le (oracle : Nat → PageResult) :
    ∀ fuel pc, (fetchLoopAux oracle fuel pc).2 ≤ 101 - pc := by
  intro fuel
  induction fuel with
  | zero => intro pc; simp [fetchLoopAux]
  | succ n ih =>
    intro pc
    simp only [fetchLoopAux]
    split
    · simp
    · rename_i hpc
      cases horacle : oracle pc with
      | fail => simp; omega
      | page orders next =>
        cases next with
        | none => simp; omega
        | some s =>
          rcases h : fetchLoopAux oracle n (pc + 1) with ⟨rest, cnt⟩
          have hcnt := ih (pc + 1)
          rw [h] at hcnt
          simp only []
          omega

/-- C7 counterexample: on the oracle whose every response carries a next
link, the collector fetches 101 pages, exceeding the 100-page ceiling
the claim states. -/
theorem fetchOrdersPaidInRange_counterexample :
    (fetchOrdersPaidInRange allNextOracle).2 = 101 ∧
    ¬ (fetchOrdersPaidInRange allNextOracle).2 ≤ 100 := by
  constructor
  · rfl
  · decide

/-- C7 amended: for every page oracle, including one on which every
response carries a next link, the collector terminates (it is a total
function of the oracle) after fetching at most 101 pages: the
`pageCount++ > 100` guard admits the before-increment values 0..100, so
the ceiling is 101 pages, not 100. -/
theorem fetchOrdersPaidInRange_pages (oracle : Nat → PageResult) :
    (fetchOrdersPaidInRange oracle).2 ≤ 101 :=
  fetchLoopAux_count_le oracle 102 0

/-- C8 counterexample: when the very first page fails after retries are
exhausted, the collector returns the same value as on a successful run
that finds no orders at all: an empty list after one page fetch, with no
error channel.  The claimed hard failure distinguishable from zero-data
success does not exist in this code path. -/
theorem fetchOrdersFirstFail_counterexample :
    fetchOrdersPaidInRange failOracle = ([], 1) ∧
    fetchOrdersPaidInRange failOracle = fetchOrdersPaidInRange emptyPageOracle := by
  exact ⟨rfl, rfl⟩

/-- C8 amended: when the first page fetch fails outright, the collector
logs, stops pagination and returns the empty order list after one page
fetch, a best-effort result indistinguishable from a zero-data
success. -/
theorem fetchOrdersFirstFail_empty (oracle : Nat → PageResult) (h : oracle 0 = .fail) :
    fetchOrdersPaidInRange oracle = ([], 1) := by
  simp [fetchOrdersPaidInRange, fetchLoopAux, h]

/-- C8 witness: the all-fail oracle satisfies the hypothesis and yields
the empty best-effort result. -/
theorem fetchOrdersFirstFail_empty_witness :
    failOracle 0 = .fail ∧ fetchOrdersPaidInRange failOracle = ([], 1) :=
  ⟨rfl, fetchOrdersFirstFail_empty failOracle rfl⟩

theorem addLine_sum (o : Order) (li : LineItem) (m : List (JsKey × Row)) :
    totalSoldQty ((addLine o m li).map Prod.snd) =
      totalSoldQty (m.map Prod.snd) + (if validateLineItem li then li.quantity else 0) := by
  by_cases hv : validateLineItem li
  · simp only [addLine, if_pos hv]
    induction m with
    | nil => simp [jsMapGet, jsMapSet, newRow, totalSoldQty]
    | cons e rest ih =>
      by_cases hk : e.1 == aggKey li
      · simp [jsMapGet, jsMapSet, hk, totalSoldQty]
        omega
      · simp only [jsMapGet, jsMapSet, hk, Bool.false_eq_true, if_false, List.map_cons]
        simp only [totalSoldQty, List.map_cons, List.sum_cons] at ih ⊢
        omega
  · simp [addLine, hv]

theorem foldl_addLine_sum (o : Order) (lis : List LineItem) :
    ∀ m, totalSoldQty ((lis.foldl (addLine o) m).map Prod.snd) =
      totalSoldQty (m.map Prod.snd) + ((lis.filter validateLineItem).map (·.quantity)).sum := by
  induction lis with
  | nil => intro m; simp
  | cons li rest ih =>
    intro m
    simp only [List.foldl_cons]
    rw [ih (addLine o m li), addLine_sum]
    by_cases hv : validateLineItem li
    · simp [hv, List.filter_cons]
      omega
    · simp [hv, List.filter_cons]

theorem foldl_addOrder_sum (orders : List Order) :
    ∀ m, totalSoldQty ((orders.foldl addOrder m).map Prod.snd) =
      totalSoldQty (m.map Prod.snd) + totalLineQty orders := by
  induction orders with
  | nil => intro m; simp [totalLineQty]
  | cons o rest ih =>
    intro m
    simp only [List.foldl_cons]
    rw [ih (addOrder m o)]
    by_cases hv : validateOrder o
    · simp only [addOrder, if_pos hv]
      rw [foldl_addLine_sum]
      simp [totalLineQty, List.filter_cons, hv]
      omega
    · simp [addOrder, hv, totalLineQty, List.filter_cons]

/-- C1: the sum of soldQty over the rows produced by the aggregation step
of processProductsComplete equals the sum of quantity over the line
items it processes (valid line items of valid orders): nothing is lost
or double-counted. -/
theorem processRows_soldQty_sum (orders : List Order) :
    totalSoldQty (processRows orders) = totalLineQty orders := by
  have hperm : (processRows orders).Perm ((aggregateOrders orders).map (·.2)) := by
    unfold processRows
    exact List.mergeSort_perm _ rowLE
  have hsum : totalSoldQty (processRows orders) =
      totalSoldQty ((aggregateOrders orders).map (·.2)) :=
    List.Perm.sum_eq (List.Perm.map _ hperm)
  rw [hsum]
  have := foldl_addOrder_sum orders []
  simpa [aggregateOrders, totalSoldQty] using this

theorem abcCatSel (q : ℚ) :
    ((if (JNum.fin q).jle (.fin 80) then ABCCat.A
      else if (JNum.fin q).jle (.fin 95) then ABCCat.B else ABCCat.C) = ABCCat.A ↔ q ≤ 80) ∧
    ((if (JNum.fin q).jle (.fin 80) then ABCCat.A
      else if (JNum.fin q).jle (.fin 95) then ABCCat.B else ABCCat.C) = ABCCat.B ↔
        80 < q ∧ q ≤ 95) ∧
    ((if (JNum.fin q).jle (.fin 80) then ABCCat.A
      else if (JNum.fin q).jle (.fin 95) then ABCCat.B else ABCCat.C) = ABCCat.C ↔ 95 < q) := by
  have hj80 : (JNum.fin q).jle (.fin 80) = decide (q ≤ 80) := rfl
  have hj95 : (JNum.fin q).jle (.fin 95) = decide (q ≤ 95) := rfl
  rw [hj80, hj95]
  by_cases h80 : q ≤ 80
  · have h95 : q ≤ 95 := le_trans h80 (by norm_num)
    have hn80 : ¬ (80 : ℚ) < q := not_lt.mpr h80
    have hn95 : ¬ (95 : ℚ) < q := not_lt.mpr h95
    simp [h80, hn80, hn95]
  · by_cases h95 : q ≤ 95
    · have hg80 : (80 : ℚ) < q := not_le.mp h80
      have hn95 : ¬ (95 : ℚ) < q := not_lt.mpr h95
      simp [h80, h95, hg80, hn95]
    · have hg95 : (95 : ℚ) < q := not_le.mp h95
      simp [h80, h95, hg95]

theorem abcGo_cat (t : ℚ) (ht : t ≠ 0) :
    ∀ (l : List RevRow) (cum : ℚ) (idx : Nat), ∀ row ∈ abcGo t cum idx l, ∃ q : ℚ,
      row.cumulativePercent = .fin q ∧
      (row.category = .A ↔ q ≤ 80) ∧
      (row.category = .B ↔ 80 < q ∧ q ≤ 95) ∧
      (row.category = .C ↔ 95 < q) := by
  intro l
  induction l with
  | nil => intro cum idx row hrow; simp [abcGo] at hrow
  | cons r rest ih =>
    intro cum idx row hrow
    simp only [abcGo, List.mem_cons] at hrow
    rcases hrow with hrow | hrow
    · subst hrow
      have hp : jsPercent (cum + r.revenue) t = .fin ((cum + r.revenue) / t * 100) := by
        simp [jsPercent, ht]
      refine ⟨(cum + r.revenue) / t * 100, ?_, ?_, ?_, ?_⟩
      · dsimp only
        rw [hp]
      · dsimp only
        rw [hp]
        exact (abcCatSel _).1
      · dsimp only
        rw [hp]
        exact (abcCatSel _).2.1
      · dsimp only
        rw [hp]
        exact (abcCatSel _).2.2
    · exact ih (cum + r.revenue) (idx + 1) row hrow

theorem abcGo_chain (t : ℚ) (ht : 0 < t) :
    ∀ (l : List RevRow) (cum : ℚ) (idx : Nat), (∀ r ∈ l, 0 ≤ r.revenue) →
      List.Chain' (fun a b : ABCRow => a.cumulativePercent.jle b.cumulativePercent = true)
        (abcGo t cum idx l) := by
  intro l
  induction l with
  | nil => intro cum idx _; simp [abcGo]
  | cons r rest ih =>
    intro cum idx hnn
    simp only [abcGo]
    rw [List.chain'_cons']
    constructor
    · intro y hy
      cases rest with
      | nil => simp [abcGo] at hy
      | cons r2 rest2 =>
        simp only [abcGo, List.head?_cons, Option.mem_some_iff] at hy
        subst hy
        have hr2 : (0 : ℚ) ≤ r2.revenue := hnn r2 (by simp)
        have hmono : (cum + r.revenue) / t * 100 ≤ (cum + r.revenue + r2.revenue) / t * 100 := by
          have h1 : cum + r.revenue ≤ cum + r.revenue + r2.revenue := by linarith
          have h2 := (div_le_div_iff_of_pos_right ht).mpr h1
          nlinarith
        simp [jsPercent, ne_of_gt ht, JNum.jle, hmono]
    · exact ih (cum + r.revenue) (idx + 1) (fun x hx => hnn x (by simp [hx]))

theorem abcGo_ranks (t : ℚ) :
    ∀ (l : List RevRow) (cum : ℚ) (idx : Nat),
      (abcGo t cum idx l).map (·.rank) = List.range' (idx + 1) l.length := by
  intro l
  induction l with
  | nil => intro cum idx; simp [abcGo]
  | cons r rest ih =>
    intro cum idx
    simp only [abcGo, List.map_cons, List.length_cons, List.range'_succ]
    rw [ih (cum + r.revenue) (idx + 1)]

/-- C3 counterexample: two rows of zero revenue satisfy the stated
hypotheses (non-empty, non-negative revenues, sorted by revenue
descending), yet the cumulative percentages the code computes are NaN
(0/0 in JavaScript), so the cumulative-percentage sequence is not
monotonically non-decreasing under the numeric comparison. -/
theorem computeABCAnalysis_counterexample :
    (rowsZero ≠ [] ∧ (∀ r ∈ rowsZero, 0 ≤ r.revenue) ∧
      List.Chain' (fun a b : RevRow => b.revenue ≤ a.revenue) rowsZero) ∧
    ¬ List.Chain' (fun a b : ABCRow => a.cumulativePercent.jle b.cumulativePercent = true)
        (computeABCAnalysis rowsZero) := by
  refine ⟨⟨by simp [rowsZero], ?_, ?_⟩, ?_⟩
  · intro r hr
    simp only [rowsZero, List.mem_cons, List.not_mem_nil, or_false] at hr
    rcases hr with rfl | rfl <;> simp
  · simp [rowsZero, List.chain'_cons', List.chain'_singleton]
  · intro hch
    simp only [computeABCAnalysis, rowsZero, List.map_cons, List.map_nil, List.sum_cons,
      List.sum_nil, add_zero, zero_add, abcGo, jsPercent, if_pos rfl] at hch
    rw [List.chain'_cons'] at hch
    have := hch.1
    simp [abcGo, jsPercent, JNum.jle] at this

/-- C3 amended: for a non-empty list of rows with non-negative revenues
sorted by revenue descending AND positive total revenue,
computeABCAnalysis gives every row exactly one category by the
cumulative thresholds (A when at most 80, B when above 80 and at most
95, C above 95), the cumulative percentage is monotonically
non-decreasing across the output, and ranks are 1-based in sort order.
The positivity hypothesis is forced by the counterexample: with total
revenue zero the percentages are NaN. -/
theorem computeABCAnalysis_spec (rows : List RevRow)
    (hne : rows ≠ [])
    (hnn : ∀ r ∈ rows, 0 ≤ r.revenue)
    (hsorted : List.Chain' (fun a b : RevRow => b.revenue ≤ a.revenue) rows)
    (hpos : 0 < (rows.map (·.revenue)).sum) :
    (∀ row ∈ computeABCAnalysis rows, ∃ q : ℚ,
      row.cumulativePercent = .fin q ∧
      (row.category = .A ↔ q ≤ 80) ∧
      (row.category = .B ↔ 80 < q ∧ q ≤ 95) ∧
      (row.category = .C ↔ 95 < q)) ∧
    List.Chain' (fun a b : ABCRow => a.cumulativePercent.jle b.cumulativePercent = true)
      (computeABCAnalysis rows) ∧
    (computeABCAnalysis rows).map (·.rank) = List.range' 1 rows.length := by
  refine ⟨?_, ?_, ?_⟩
  · exact abcGo_cat _ (ne_of_gt hpos) rows 0 0
  · exact abcGo_chain _ hpos rows 0 0 hnn
  · exact abcGo_ranks _ rows 0 0

/-- C3 witness: the concrete two-row input with positive total revenue
satisfies the hypotheses and hence the amended classification,
monotonicity and rank properties. -/
theorem computeABCAnalysis_spec_witness :
    (rowsEx ≠ [] ∧ (∀ r ∈ rowsEx, 0 ≤ r.revenue) ∧
      List.Chain' (fun a b : RevRow => b.revenue ≤ a.revenue) rowsEx ∧
      0 < (rowsEx.map (·.revenue)).sum) ∧
    ((∀ row ∈ computeABCAnalysis rowsEx, ∃ q : ℚ,
      row.cumulativePercent = .fin q ∧
      (row.category = .A ↔ q ≤ 80) ∧
      (row.category = .B ↔ 80 < q ∧ q ≤ 95) ∧
      (row.category = .C ↔ 95 < q)) ∧
    List.Chain' (fun a b : ABCRow => a.cumulativePercent.jle b.cumulativePercent = true)
      (computeABCAnalysis rowsEx) ∧
    (computeABCAnalysis rowsEx).map (·.rank) = List.range' 1 rowsEx.length) := by
  have h1 : rowsEx ≠ [] := by simp [rowsEx]
  have h2 : ∀ r ∈ rowsEx, 0 ≤ r.revenue := by
    intro r hr
    simp only [rowsEx, List.mem_cons, List.not_mem_nil, or_false] at hr
    rcases hr with rfl | rfl <;> norm_num
  have h3 : List.Chain' (fun a b : RevRow => b.revenue ≤ a.revenue) rowsEx := by
    simp only [rowsEx, List.chain'_cons', List.head?_cons, Option.mem_some_iff]
    refine ⟨fun y hy => ?_, by simp⟩
    subst hy
    norm_num
  have h4 : 0 < (rowsEx.map (·.revenue)).sum := by
    simp only [rowsEx, List.map_cons, List.map_nil, List.sum_cons, List.sum_nil]
    norm_num
  exact ⟨⟨h1, h2, h3, h4⟩, computeABCAnalysis_spec rowsEx h1 h2 h3 h4⟩

theorem deadStockRows_mem {variantIds : List Nat} {orders : List Order}
    {info : Nat → Option VariantInfo} {inv : Nat → Option ℚ} {days : Nat} {item : DeadItem}
    (h : item ∈ deadStockRows variantIds orders info inv days) :
    item.variantId ∈ variantIds ∧ item.variantId ∉ soldVariantIds orders ∧
    0 < item.quantity ∧ item.totalValue = item.quantity * item.unitPrice := by
  simp only [deadStockRows] at h
  split at h
  · exact absurd h (List.not_mem_nil _)
  · have h2 := (List.mergeSort_perm _ _).subset h
    obtain ⟨hin, hq⟩ := List.mem_filter.mp h2
    obtain ⟨vid, hvid, hmk⟩ := List.mem_filterMap.mp hin
    obtain ⟨hvmem, hvsold⟩ := List.mem_filter.mp hvid
    cases hinfo : info vid with
    | none => rw [hinfo] at hmk; cases hmk
    | some i =>
      rw [hinfo] at hmk
      obtain rfl : _ = item := Option.some_injective _ hmk
      refine ⟨hvmem, ?_, by simpa using hq, rfl⟩
      intro hsold
      simp at hvsold
      exact hvsold hsold

theorem deadStockRows_sorted (variantIds : List Nat) (orders : List Order)
    (info : Nat → Option VariantInfo) (inv : Nat → Option ℚ) (days : Nat) :
    List.Pairwise (fun a b : DeadItem => b.totalValue ≤ a.totalValue)
      (deadStockRows variantIds orders info inv days) := by
  simp only [deadStockRows]
  split
  · exact List.Pairwise.nil
  · refine List.Pairwise.imp ?_ (List.sorted_mergeSort ?_ ?_ _)
    · intro a b hab
      exact of_decide_eq_true hab
    · intro a b c hab hbc
      have h1 := of_decide_eq_true hab
      have h2 := of_decide_eq_true hbc
      exact decide_eq_true (le_trans h2 h1)
    · intro a b
      rw [Bool.or_eq_true]
      rcases le_total b.totalValue a.totalValue with h | h
      · exact Or.inl (decide_eq_true h)
      · exact Or.inr (decide_eq_true h)

theorem detectDeadStockBody_ok_cases (period : String) (variantIds : List Nat)
    (orders : List Order) (info : Nat → Option VariantInfo) (inv : Nat → Option ℚ)
    (days : Nat) :
    detectDeadStockBody period variantIds (.ok orders) (.ok info) (.ok inv) days = .ok [] ∨
    detectDeadStockBody period variantIds (.ok orders) (.ok info) (.ok inv) days =
      .ok (deadStockRows variantIds orders info inv days) := by
  unfold detectDeadStockBody
  by_cases hper : (period == "weekly" || period == "monthly") = true
  · rw [if_pos hper]
    exact Or.inl rfl
  · rw [if_neg hper]
    dsimp only
    by_cases he :
        (variantIds.filter (fun id => !((soldVariantIds orders).contains id))).isEmpty = true
    · rw [if_pos he]
      exact Or.inl rfl
    · rw [if_neg he]
      exact Or.inr rfl

theorem detectDeadStock_ok_cases (period : String) (variantIds : List Nat) (orders : List Order)
    (info : Nat → Option VariantInfo) (inv : Nat → Option ℚ) (days : Nat) :
    detectDeadStock period variantIds (.ok orders) (.ok info) (.ok inv) days = [] ∨
    detectDeadStock period variantIds (.ok orders) (.ok info) (.ok inv) days =
      deadStockRows variantIds orders info inv days := by
  unfold detectDeadStock
  rcases detectDeadStockBody_ok_cases period variantIds orders info inv days with h | h <;>
    rw [h]
  · exact Or.inl rfl
  · exact Or.inr rfl

/-- C9: on a run whose fetches all succeed, a variant sold in the
lookback orders never appears in the dead-stock list, every returned
item has positive quantity with totalValue equal to quantity times unit
price, and the list is sorted by totalValue descending. -/
theorem detectDeadStock_spec (period : String) (variantIds : List Nat) (orders : List Order)
    (info : Nat → Option VariantInfo) (inv : Nat → Option ℚ) (days : Nat) :
    (∀ v ∈ soldVariantIds orders,
      v ∉ (detectDeadStock period variantIds (.ok orders) (.ok info) (.ok inv) days).map
        (·.variantId)) ∧
    (∀ item ∈ detectDeadStock period variantIds (.ok orders) (.ok info) (.ok inv) days,
      0 < item.quantity ∧ item.totalValue = item.quantity * item.unitPrice) ∧
    List.Pairwise (fun a b : DeadItem => b.totalValue ≤ a.totalValue)
      (detectDeadStock period variantIds (.ok orders) (.ok info) (.ok inv) days) := by
  rcases detectDeadStock_ok_cases period variantIds orders info inv days with h | h <;> rw [h]
  · exact ⟨by simp, by simp, by simp⟩
  · refine ⟨?_, ?_, deadStockRows_sorted variantIds orders info inv days⟩
    · intro v hv hmem
      obtain ⟨item, hitem, hvid⟩ := List.mem_map.mp hmem
      have := (deadStockRows_mem hitem).2.1
      rw [hvid] at this
      exact this hv
    · intro item hitem
      exact ⟨(deadStockRows_mem hitem).2.2.1, (deadStockRows_mem hitem).2.2.2⟩

/-- C9 witness: in the concrete scenario variant 1 is sold inside the
lookback window and therefore absent from the dead-stock list of the
run. -/
theorem detectDeadStock_spec_witness :
    1 ∈ soldVariantIds orders90Ex ∧
    1 ∉ (detectDeadStock periodDailyEx variantIdsEx (.ok orders90Ex) (.ok infoEx) (.ok invEx)
      90).map (·.variantId) :=
  ⟨by decide,
    (detectDeadStock_spec periodDailyEx variantIdsEx orders90Ex infoEx invEx 90).1 1 (by decide)⟩

/-- C10: detectDeadStock is a total function that never propagates a
failure: whenever any of its three internal fetches rejects, the catch
clause returns the empty list, and a successful run finding no dead
variants returns the same empty list, making the two indistinguishable. -/
theorem detectDeadStock_total (period : String) (variantIds : List Nat)
    (fo : Except String (List Order)) (fv : Except String (Nat → Option VariantInfo))
    (fi : Except String (Nat → Option ℚ)) (days : Nat) :
    (∀ e, fo = .error e → detectDeadStock period variantIds fo fv fi days = []) ∧
    (∀ e, fv = .error e → detectDeadStock period variantIds fo fv fi days = []) ∧
    (∀ e, fi = .error e → detectDeadStock period variantIds fo fv fi days = []) ∧
    (∀ info2 : Nat → Option VariantInfo, ∀ inv2 : Nat → Option ℚ,
      detectDeadStock period [] (.ok []) (.ok info2) (.ok inv2) days = []) := by
  refine ⟨?_, ?_, ?_, ?_⟩
  · intro e he
    subst he
    unfold detectDeadStock detectDeadStockBody
    by_cases hper : (period == "weekly" || period == "monthly") = true
    · rw [if_pos hper]
    · rw [if_neg hper]
  · intro e he
    subst he
    unfold detectDeadStock detectDeadStockBody
    by_cases hper : (period == "weekly" || period == "monthly") = true
    · rw [if_pos hper]
    · rw [if_neg hper]
      cases fo with
      | error e2 => rfl
      | ok orders =>
        dsimp only
        by_cases he2 :
            (variantIds.filter (fun id => !((soldVariantIds orders).contains id))).isEmpty = true
        · rw [if_pos he2]
        · rw [if_neg he2]
  · intro e he
    subst he
    unfold detectDeadStock detectDeadStockBody
    by_cases hper : (period == "weekly" || period == "monthly") = true
    · rw [if_pos hper]
    · rw [if_neg hper]
      cases fo with
      | error e2 => rfl
      | ok orders =>
        dsimp only
        by_cases he2 :
            (variantIds.filter (fun id => !((soldVariantIds orders).contains id))).isEmpty = true
        · rw [if_pos he2]
        · rw [if_neg he2]
          cases fv with
          | error e3 => rfl
          | ok info => rfl
  · intro info2 inv2
    unfold detectDeadStock detectDeadStockBody
    by_cases hper : (period == "weekly" || period == "monthly") = true
    · rw [if_pos hper]
    · rw [if_neg hper]
      dsimp only
      rw [if_pos (by rfl :
        (([] : List Nat).filter
          (fun id => !((soldVariantIds ([] : List Order)).contains id))).isEmpty = true)]

/-- C10 witness: the concrete rejected lookback fetch is caught and
yields the empty list. -/
theorem detectDeadStock_total_witness :
    fetchOrdersFailEx = .error errMsgEx ∧
    detectDeadStock periodDailyEx variantIdsEx fetchOrdersFailEx (.ok infoEx) (.ok invEx)
      90 = [] :=
  ⟨rfl,
    (detectDeadStock_total periodDailyEx variantIdsEx fetchOrdersFailEx (.ok infoEx)
      (.ok invEx) 90).1 errMsgEx rfl⟩

theorem bumpVal_getD (k j : Nat) (v : ℚ) (m : List (Nat × ℚ)) :
    (jsMapGet k (bumpVal j v m)).getD 0 =
      (jsMapGet k m).getD 0 + (if j = k then v else 0) := by
  induction m with
  | nil =>
    by_cases h : j = k
    · simp [bumpVal, jsMapGet, h]
    · simp [bumpVal, jsMapGet, h, (by simpa using h : ¬ (j == k) = true)]
  | cons e rest ih =>
    by_cases he : e.1 = j
    · subst he
      simp only [bumpVal, beq_self_eq_true, if_true]
      by_cases hk : e.1 = k
      · simp [jsMapGet, hk, add_assoc]
      · simp [jsMapGet, hk, (by simpa using hk : ¬ (e.1 == k) = true)]
    · simp only [bumpVal, (by simpa using he : ¬ (e.1 == j) = true), if_false]
      by_cases hk : e.1 = k
      · have hjk : ¬ j = k := fun h => he (h ▸ hk)
        simp [jsMapGet, hk, hjk]
      · simp only [jsMapGet, (by simpa using hk : ¬ (e.1 == k) = true), Bool.false_eq_true,
          if_false]
        exact ih

theorem bumpVal_isSome (k j : Nat) (v : ℚ) (m : List (Nat × ℚ)) :
    (jsMapGet k (bumpVal j v m)).isSome =
      ((jsMapGet k m).isSome || (j == k)) := by
  induction m with
  | nil =>
    by_cases h : j = k
    · simp [bumpVal, jsMapGet, h]
    · simp [bumpVal, jsMapGet, h, (by simpa using h : ¬ (j == k) = true)]
  | cons e rest ih =>
    by_cases he : e.1 = j
    · subst he
      simp only [bumpVal, beq_self_eq_true, if_true]
      by_cases hk : e.1 = k
      · simp [jsMapGet, hk]
      · simp [jsMapGet, hk, (by simpa using hk : ¬ (e.1 == k) = true)]
    · simp only [bumpVal, (by simpa using he : ¬ (e.1 == j) = true), if_false]
      by_cases hk : e.1 = k
      · simp [jsMapGet, hk]
      · simp only [jsMapGet, (by simpa using hk : ¬ (e.1 == k) = true), Bool.false_eq_true,
          if_false]
        exact ih

theorem resolveLoc_fst (f : Nat → Option Location) (c : List Location) (lid : Nat)
    (hc : cacheConsistent f c) : (resolveLoc f c lid).1 = f lid := by
  unfold resolveLoc
  cases hf : c.find? (fun l => l.id == lid) with
  | some l =>
    have hp : l.id = lid := by simpa using List.find?_some hf
    have hm : l ∈ c := List.mem_of_find?_eq_some hf
    simp only
    rw [← hp]
    exact (hc l hm).symm
  | none =>
    cases hfl : f lid with
    | some l => simp
    | none => simp

theorem resolveLoc_cache (f : Nat → Option Location) (c : List Location) (lid : Nat)
    (hc : cacheConsistent f c) (hself : locSelfId f) :
    cacheConsistent f (resolveLoc f c lid).2 := by
  unfold resolveLoc
  cases hf : c.find? (fun l => l.id == lid) with
  | some l => exact hc
  | none =>
    cases hfl : f lid with
    | some l =>
      intro x hx
      rcases List.mem_append.mp hx with hx | hx
      · exact hc x hx
      · have : x = l := by simpa using hx
        subst this
        rw [hself lid x hfl]
        exact hfl
    | none => exact hc

theorem addLevel_fst (inc : Bool) (f : Nat → Option Location)
    (st : List (Nat × ℚ) × List Location) (lvl : InvLevel)
    (hc : cacheConsistent f st.2) :
    (addLevel inc f st lvl).1 =
      if lvlOk inc f lvl then bumpVal lvl.inventory_item_id lvl.available st.1 else st.1 := by
  cases inc with
  | true => simp [addLevel, lvlOk]
  | false =>
    have h1 := resolveLoc_fst f st.2 lvl.location_id hc
    simp only [addLevel, lvlOk, Bool.false_eq_true, if_false, Bool.false_or]
    rcases hres : resolveLoc f st.2 lvl.location_id with ⟨o, c2⟩
    rw [hres] at h1
    simp only at h1
    rw [← h1]
    cases o with
    | none => simp
    | some loc =>
      cases hact : loc.active with
      | true => simp [hact]
      | false => simp [hact]

theorem addLevel_cache (inc : Bool) (f : Nat → Option Location)
    (st : List (Nat × ℚ) × List Location) (lvl : InvLevel)
    (hc : cacheConsistent f st.2) (hself : locSelfId f) :
    cacheConsistent f (addLevel inc f st lvl).2 := by
  cases inc with
  | true => simpa [addLevel] using hc
  | false =>
    have h2 := resolveLoc_cache f st.2 lvl.location_id hc hself
    simp only [addLevel, Bool.false_eq_true, if_false]
    rcases hres : resolveLoc f st.2 lvl.location_id with ⟨o, c2⟩
    rw [hres] at h2
    simp only at h2
    cases o with
    | none => exact h2
    | some loc =>
      cases hact : loc.active with
      | true => simpa [hact] using h2
      | false => simpa [hact] using h2

theorem foldLevels (inc : Bool) (f : Nat → Option Location) (hself : locSelfId f)
    (lvls : List InvLevel) :
    ∀ st : List (Nat × ℚ) × List Location, cacheConsistent f st.2 → ∀ k : Nat,
      ((jsMapGet k (lvls.foldl (addLevel inc f) st).1).getD 0 =
        (jsMapGet k st.1).getD 0 +
          ((lvls.filter (fun l => l.inventory_item_id == k && lvlOk inc f l)).map
            (·.available)).sum) ∧
      ((jsMapGet k (lvls.foldl (addLevel inc f) st).1).isSome =
        ((jsMapGet k st.1).isSome ||
          !(lvls.filter (fun l => l.inventory_item_id == k && lvlOk inc f l)).isEmpty)) ∧
      cacheConsistent f (lvls.foldl (addLevel inc f) st).2 := by
  induction lvls with
  | nil => intro st hc k; simp [hc]
  | cons lvl rest ih =>
    intro st hc k
    have hc1 : cacheConsistent f (addLevel inc f st lvl).2 := addLevel_cache inc f st lvl hc hself
    obtain ⟨ihg, ihs, ihc⟩ := ih (addLevel inc f st lvl) hc1 k
    have hfst := addLevel_fst inc f st lvl hc
    refine ⟨?_, ?_, by simpa using ihc⟩
    · simp only [List.foldl_cons]
      rw [ihg, hfst]
      by_cases hok : lvlOk inc f lvl
      · by_cases hik : lvl.inventory_item_id = k
        · simp [List.filter_cons, hok, hik, bumpVal_getD, add_assoc]
        · have : ¬ (lvl.inventory_item_id == k) = true := by simpa using hik
          simp [List.filter_cons, hok, this, bumpVal_getD, hik]
      · simp [List.filter_cons, hok]
    · simp only [List.foldl_cons]
      rw [ihs, hfst]
      by_cases hok : lvlOk inc f lvl
      · by_cases hik : lvl.inventory_item_id = k
        · simp [List.filter_cons, hok, hik, bumpVal_isSome]
        · have hbeq : ¬ (lvl.inventory_item_id == k) = true := by simpa using hik
          simp [List.filter_cons, hok, hbeq, bumpVal_isSome, hik]
      · simp [List.filter_cons, hok]

theorem filterChunkList (envLevels : List InvLevel) (c : List Nat) (k : Nat)
    (p : InvLevel → Bool) :
    ((envLevels.filter (fun l => c.contains l.inventory_item_id)).filter
      (fun l => l.inventory_item_id == k && p l)) =
    (if c.contains k then envLevels.filter (fun l => l.inventory_item_id == k && p l)
     else []) := by
  rw [List.filter_filter]
  by_cases hc : k ∈ c
  · rw [if_pos (List.elem_iff.mpr hc)]
    apply List.filter_congr
    intro a _
    by_cases hk : a.inventory_item_id = k
    · simp [hk, hc]
    · simp [hk]
  · rw [if_neg (by simpa using hc)]
    rw [List.filter_eq_nil_iff]
    intro a _ ha
    simp only [Bool.and_eq_true, beq_iff_eq] at ha
    exact hc (ha.1.1 ▸ List.elem_iff.mp ha.2)

theorem foldChunks (fetchLevels : List Nat → Option (List InvLevel))
    (f : Nat → Option Location) (inc : Bool) (envLevels : List InvLevel)
    (hfetch : ∀ c, fetchLevels c =
      some (envLevels.filter (fun l => c.contains l.inventory_item_id)))
    (hself : locSelfId f) :
    ∀ (cs : List (List Nat)) (st : List (Nat × ℚ) × List Location),
      cacheConsistent f st.2 → ∀ k : Nat,
      ((jsMapGet k ((cs.foldl (processChunk fetchLevels inc f) st).1)).getD 0 =
        (jsMapGet k st.1).getD 0 +
          (cs.map (fun c => if c.contains k then
            ((envLevels.filter (fun l => l.inventory_item_id == k && lvlOk inc f l)).map
              (·.available)).sum else 0)).sum) ∧
      ((jsMapGet k ((cs.foldl (processChunk fetchLevels inc f) st).1)).isSome =
        ((jsMapGet k st.1).isSome ||
          cs.any (fun c => c.contains k &&
            !(envLevels.filter
              (fun l => l.inventory_item_id == k && lvlOk inc f l)).isEmpty))) ∧
      cacheConsistent f ((cs.foldl (processChunk fetchLevels inc f) st).2) := by
  intro cs
  induction cs with
  | nil => intro st hc k; simp [hc]
  | cons c cs ih =>
    intro st hc k
    have hpc : processChunk fetchLevels inc f st c =
        (envLevels.filter (fun l => c.contains l.inventory_item_id)).foldl
          (addLevel inc f) st := by
      unfold processChunk
      rw [hfetch c]
    obtain ⟨hg, hs, hcc⟩ := foldLevels inc f hself
      (envLevels.filter (fun l => c.contains l.inventory_item_id)) st hc k
    have hsum : (((envLevels.filter (fun l => c.contains l.inventory_item_id)).filter
        (fun l => l.inventory_item_id == k && lvlOk inc f l)).map (·.available)).sum =
        (if c.contains k then
          ((envLevels.filter (fun l => l.inventory_item_id == k && lvlOk inc f l)).map
            (·.available)).sum else 0) := by
      rw [filterChunkList]
      by_cases hck : k ∈ c <;> simp [hck]
    have hemp : (!((envLevels.filter (fun l => c.contains l.inventory_item_id)).filter
        (fun l => l.inventory_item_id == k && lvlOk inc f l)).isEmpty) =
        (c.contains k &&
          !(envLevels.filter (fun l => l.inventory_item_id == k && lvlOk inc f l)).isEmpty) := by
      rw [filterChunkList]
      by_cases hck : k ∈ c <;> simp [hck]
    obtain ⟨ihg, ihs, ihc⟩ := ih (processChunk fetchLevels inc f st c)
      (by rw [hpc]; exact hcc) k
    refine ⟨?_, ?_, by simpa using ihc⟩
    · simp only [List.foldl_cons, List.map_cons, List.sum_cons]
      rw [ihg, hpc, hg, hsum, add_assoc]
    · simp only [List.foldl_cons, List.any_cons]
      rw [ihs, hpc, hs, hemp, Bool.or_assoc]

theorem sumZeroOfNotMem (k : Nat) (S : ℚ) (b : Bool) :
    ∀ cs : List (List Nat), (∀ c ∈ cs, k ∉ c) →
      ((cs.map (fun c => if c.contains k then S else 0)).sum = 0 ∧
       cs.any (fun c => c.contains k && b) = false) := by
  intro cs
  induction cs with
  | nil => intro; simp
  | cons c cs ih =>
    intro h
    have hk : k ∉ c := h c (by simp)
    have hcb : c.contains k = false := by simpa using hk
    obtain ⟨ih1, ih2⟩ := ih (fun c2 hc2 => h c2 (by simp [hc2]))
    simp only [List.map_cons, List.sum_cons, List.any_cons]
    rw [if_neg (fun hcc => Bool.false_ne_true (hcb ▸ hcc)), ih1, ih2, hcb]
    simp

theorem sumOnce (k : Nat) (S : ℚ) (b : Bool) :
    ∀ cs : List (List Nat), List.count k cs.flatten = 1 →
      ((cs.map (fun c => if c.contains k then S else 0)).sum = S ∧
       cs.any (fun c => c.contains k && b) = b) := by
  intro cs
  induction cs with
  | nil => intro h; simp at h
  | cons c cs ih =>
    intro h
    rw [List.flatten_cons, List.count_append] at h
    by_cases hk : k ∈ c
    · have h1 : 1 ≤ List.count k c := List.one_le_count_iff.mpr hk
      have h0 : List.count k cs.flatten = 0 := by omega
      have hnone : ∀ c2 ∈ cs, k ∉ c2 := by
        intro c2 hc2 hm
        exact absurd (List.mem_flatten.mpr ⟨c2, hc2, hm⟩) (List.count_eq_zero.mp h0)
      obtain ⟨hz1, hz2⟩ := sumZeroOfNotMem k S b cs hnone
      have hcb : c.contains k = true := List.elem_iff.mpr hk
      simp only [List.map_cons, List.sum_cons, List.any_cons]
      rw [if_pos hcb, hz1, hz2, hcb]
      simp
    · have hcb : c.contains k = false := by simpa using hk
      have h0 : List.count k c = 0 := List.count_eq_zero.mpr hk
      obtain ⟨ih1, ih2⟩ := ih (by omega)
      simp only [List.map_cons, List.sum_cons, List.any_cons]
      rw [if_neg (fun hcc => Bool.false_ne_true (hcb ▸ hcc)), ih1, ih2, hcb]
      simp

theorem chunk50_flatten {α : Type} :
    ∀ (n : Nat) (l : List α), l.length ≤ n → (chunk50 l).flatten = l := by
  intro n
  induction n with
  | zero =>
    intro l h
    have : l = [] := List.length_eq_zero.mp (Nat.le_zero.mp h)
    subst this
    simp [chunk50]
  | succ n ih =>
    intro l h
    cases l with
    | nil => simp [chunk50]
    | cons x xs =>
      rw [chunk50, List.flatten_cons,
        ih ((x :: xs).drop 50) (by simp [List.length_drop] at h ⊢; omega),
        List.take_append_drop]

theorem jsDedup_aux {α : Type} [BEq α] [LawfulBEq α] :
    ∀ (l acc : List α), acc.Nodup →
      (l.foldl (fun acc x => if acc.contains x then acc else acc ++ [x]) acc).Nodup ∧
      (∀ a, a ∈ l.foldl (fun acc x => if acc.contains x then acc else acc ++ [x]) acc ↔
        a ∈ acc ∨ a ∈ l) := by
  intro l
  induction l with
  | nil => intro acc h; simpa using h
  | cons x xs ih =>
    intro acc h
    simp only [List.foldl_cons]
    by_cases hx : acc.contains x = true
    · rw [if_pos hx]
      obtain ⟨ih1, ih2⟩ := ih acc h
      refine ⟨ih1, fun a => ?_⟩
      rw [ih2]
      have hxa : x ∈ acc := List.elem_iff.mp hx
      simp only [List.mem_cons]
      constructor
      · rintro (h2 | h2)
        · exact Or.inl h2
        · exact Or.inr (Or.inr h2)
      · rintro (h2 | h2 | h2)
        · exact Or.inl h2
        · exact Or.inl (h2 ▸ hxa)
        · exact Or.inr h2
    · rw [if_neg hx]
      have hxa : x ∉ acc := fun hm => hx (List.elem_iff.mpr hm)
      have hnodup : (acc ++ [x]).Nodup := by
        rw [List.nodup_append]
        exact ⟨h, List.nodup_singleton x,
          fun a ha hm => hxa ((List.mem_singleton.mp hm) ▸ ha)⟩
      obtain ⟨ih1, ih2⟩ := ih (acc ++ [x]) hnodup
      refine ⟨ih1, fun a => ?_⟩
      rw [ih2]
      simp only [List.mem_append, List.mem_singleton, List.mem_cons, List.not_mem_nil,
        or_false]
      tauto

theorem jsDedup_nodup {α : Type} [BEq α] [LawfulBEq α] (l : List α) :
    (jsDedup l).Nodup :=
  (jsDedup_aux l [] List.nodup_nil).1

theorem jsDedup_mem {α : Type} [BEq α] [LawfulBEq α] (l : List α) (a : α) :
    a ∈ jsDedup l ↔ a ∈ l := by
  rw [jsDedup, (jsDedup_aux l [] List.nodup_nil).2 a]
  simp

/-- C5: for every requested nonzero item id, when the inventory endpoint
returns exactly the environment levels of the queried items and every
cached location agrees with the location endpoint, the enricher
accumulates, for that item, the sum of available over its levels
restricted to levels whose location resolves active — unless the caller
opted into inactive locations, in which case every level of the item is
summed (lvlOk is identically true then).  The entry is absent exactly
when no level of the item survives the filter; the enrichment loop then
falls back and the claim does not bind inventoryAvailable to a levels
sum. -/
theorem fetchInventoryLevelsForItems_spec
    (fetchLevels : List Nat → Option (List InvLevel)) (fetchLoc : Nat → Option Location)
    (cache0 : List Location) (itemIds : List Nat) (includeInactive : Bool)
    (envLevels : List InvLevel) (iid : Nat)
    (hmem : iid ∈ itemIds) (hnz : iid ≠ 0)
    (hfetch : ∀ c, fetchLevels c =
      some (envLevels.filter (fun l => c.contains l.inventory_item_id)))
    (hcache : cacheConsistent fetchLoc cache0)
    (hself : locSelfId fetchLoc)
    (hres : ∀ lvl ∈ envLevels, lvl.inventory_item_id = iid →
      (fetchLoc lvl.location_id).isSome = true) :
    jsMapGet iid
      (fetchInventoryLevelsForItems fetchLevels fetchLoc cache0 itemIds includeInactive).1 =
    (if (envLevels.filter (fun l => l.inventory_item_id == iid &&
          lvlOk includeInactive fetchLoc l)).isEmpty then none
     else some (((envLevels.filter (fun l => l.inventory_item_id == iid &&
          lvlOk includeInactive fetchLoc l)).map (·.available)).sum)) := by
  have hmem2 : iid ∈ jsDedup (itemIds.filter (fun i => i != 0)) :=
    (jsDedup_mem _ _).mpr (List.mem_filter.mpr ⟨hmem, by simpa using hnz⟩)
  have hnodup := jsDedup_nodup (itemIds.filter (fun i => i != 0))
  have hcount :
      List.count iid (chunk50 (jsDedup (itemIds.filter (fun i => i != 0)))).flatten = 1 := by
    rw [chunk50_flatten (jsDedup (itemIds.filter (fun i => i != 0))).length _ le_rfl]
    exact List.count_eq_one_of_mem hnodup hmem2
  obtain ⟨hg, hs, _⟩ := foldChunks fetchLevels fetchLoc includeInactive envLevels hfetch hself
    (chunk50 (jsDedup (itemIds.filter (fun i => i != 0)))) ([], cache0) hcache iid
  obtain ⟨ho1, ho2⟩ := sumOnce iid
    (((envLevels.filter (fun l => l.inventory_item_id == iid &&
        lvlOk includeInactive fetchLoc l)).map (·.available)).sum)
    (!(envLevels.filter (fun l => l.inventory_item_id == iid &&
        lvlOk includeInactive fetchLoc l)).isEmpty)
    (chunk50 (jsDedup (itemIds.filter (fun i => i != 0)))) hcount
  rw [ho1] at hg
  rw [ho2] at hs
  simp only [jsMapGet, Option.getD_none, Option.isSome_none, Bool.false_or, zero_add] at hg hs
  unfold fetchInventoryLevelsForItems
  cases hfin : jsMapGet iid
      ((chunk50 (jsDedup (itemIds.filter (fun i => i != 0)))).foldl
        (processChunk fetchLevels includeInactive fetchLoc) ([], cache0)).1 with
  | none =>
    rw [hfin] at hs
    have : (envLevels.filter (fun l => l.inventory_item_id == iid &&
        lvlOk includeInactive fetchLoc l)).isEmpty = true := by
      cases hE : (envLevels.filter (fun l => l.inventory_item_id == iid &&
          lvlOk includeInactive fetchLoc l)).isEmpty
      · rw [hE] at hs
        simp at hs
      · rfl
    rw [if_pos this]
  | some q =>
    rw [hfin] at hs hg
    have hE : (envLevels.filter (fun l => l.inventory_item_id == iid &&
        lvlOk includeInactive fetchLoc l)).isEmpty = false := by
      cases hE : (envLevels.filter (fun l => l.inventory_item_id == iid &&
          lvlOk includeInactive fetchLoc l)).isEmpty
      · rfl
      · rw [hE] at hs
        simp at hs
    rw [if_neg (fun hcc => Bool.false_ne_true (hE ▸ hcc))]
    simp only [Option.getD_some] at hg
    rw [hg]

/-- C5 witness: the end-to-end scenario with levels of 5 and 3 units at
two active locations and 100 units at an inactive location, with
includeInactiveLocations off, resolves item 7 to 8 available units. -/
theorem fetchInventoryLevelsForItems_spec_witness :
    ((7 : Nat) ∈ ([7] : List Nat) ∧ (7 : Nat) ≠ 0 ∧
     (∀ c, fetchLevelsEx c =
       some (envLevelsEx.filter (fun l => c.contains l.inventory_item_id))) ∧
     cacheConsistent fetchLocEx [] ∧ locSelfId fetchLocEx ∧
     (∀ lvl ∈ envLevelsEx, lvl.inventory_item_id = 7 →
       (fetchLocEx lvl.location_id).isSome = true)) ∧
    jsMapGet 7 (fetchInventoryLevelsForItems fetchLevelsEx fetchLocEx [] [7] false).1 =
      some 8 := by
  have h3 : ∀ c, fetchLevelsEx c =
      some (envLevelsEx.filter (fun l => c.contains l.inventory_item_id)) :=
    fun c => rfl
  have h4 : cacheConsistent fetchLocEx [] := fun l hl => absurd hl (List.not_mem_nil l)
  have h5 : locSelfId fetchLocEx := by
    intro lid l h
    unfold fetchLocEx at h
    split_ifs at h with h1 h2 h6 <;> simp_all <;> exact (congrArg Location.id h).symm
  have h6 : ∀ lvl ∈ envLevelsEx, lvl.inventory_item_id = 7 →
      (fetchLocEx lvl.location_id).isSome = true := by decide
  refine ⟨⟨by decide, by decide, h3, h4, h5, h6⟩, ?_⟩
  have h0 := fetchInventoryLevelsForItems_spec fetchLevelsEx fetchLocEx [] [7] false
    envLevelsEx 7 (by decide) (by decide) h3 h4 h5 h6
  rw [h0]
  norm_num [envLevelsEx, lvlOk, fetchLocEx, List.filter_cons]

end SalesReport
